import Mathlib

/-!
Verification of the thread-scheduling core of the KJ-Pintos kernel.

The definitions below are a shallow embedding of the C sources:
  * `src/threads/thread.c`  — ready queue, sleep list, MLFQS helpers
  * `src/threads/synch.c`   — semaphore, lock, condition variable
  * `src/devices/timer.c`   — tick counter, `timer_sleep`, timer ISR
  * `src/lib/kernel/list.c` — `list_insert_ordered` and friends
  * `src/threads/fixed-point.h` — 17.14 fixed-point macros

Threads are modelled as records; intrusive list nodes become ordinary
Lean lists holding the records (each thread is in at most one scheduler
queue at a time, exactly as in the source).  Machine integers are
modelled as `Int` (no claim below depends on 32-bit wraparound).
-/

namespace Pintos

/-- Thread status, from `enum thread_status` in `thread.h`. -/
inductive Status where
  | running
  | ready
  | blocked
  | dying
deriving DecidableEq, Repr

/-- `PRI_MIN` from `thread.h`. -/
def PRI_MIN : Int := 0

/-- `PRI_DEFAULT` from `thread.h`. -/
def PRI_DEFAULT : Int := 31

/-- `PRI_MAX` from `thread.h`. -/
def PRI_MAX : Int := 63

/-- `TIME_SLICE` from `thread.c`. -/
def TIME_SLICE : Nat := 4

/-- The 17.14 fixed-point scale factor `F = 1 << 14` from `fixed-point.h`. -/
def F : Int := 16384

/-- `FP_ADD_MIXED(x, n) = x + n * F` from `fixed-point.h`. -/
def FP_ADD_MIXED (x n : Int) : Int := x + n * F

/-- The scheduling-relevant fields of `struct thread` (`thread.h`). -/
structure Thrd where
  tid : Nat
  status : Status
  priority : Int
  base_priority : Int
  wakeup_tick : Int
  nice : Int
  recent_cpu : Int
deriving DecidableEq, Repr

/-- `list_insert_ordered` from `list.c`: walk from the front and insert
the new element just before the first element `e` with `less elem e`. -/
def list_insert_ordered (less : α → α → Bool) : List α → α → List α
  | [], x => [x]
  | y :: ys, x => if less x y then x :: y :: ys else y :: list_insert_ordered less ys x

/-- `thread_priority_less_func` from `thread.c`: descending effective
priority (`a->priority > b->priority`). -/
def thread_priority_less_func (a b : Thrd) : Bool := a.priority > b.priority

/-- `thread_wakeup_less_func` from `thread.c`: ascending wakeup tick
(`a->wakeup_tick < b->wakeup_tick`). -/
def thread_wakeup_less_func (a b : Thrd) : Bool := a.wakeup_tick < b.wakeup_tick

/-! ## Semaphores (`synch.c`)

Waiters are recorded by `tid` in queue order, front of the C list first.
`sema_down` uses `list_push_back` and `sema_up` uses `list_pop_front`
(the source keeps the skeleton's FIFO discipline; the comments in
`synch.c` direct a port to `list_insert_ordered`, which is not done). -/

structure Semaphore where
  value : Nat
  waiters : List Nat
deriving DecidableEq, Repr

/-- `sema_init` from `synch.c`. -/
def sema_init (value : Nat) : Semaphore := { value := value, waiters := [] }

/-- `sema_try_down` from `synch.c`: decrement if positive and report
success, otherwise leave the semaphore untouched and report failure.
Straight-line code; it never blocks. -/
def sema_try_down (s : Semaphore) : Semaphore × Bool :=
  if s.value > 0 then ({ s with value := s.value - 1 }, true)
  else (s, false)

/-- One iteration of the `while (sema->value == 0)` loop body in
`sema_down` (`synch.c`): the caller appends itself to the waiter queue
with `list_push_back` and blocks. -/
def sema_down_wait (s : Semaphore) (cur : Nat) : Semaphore :=
  { s with waiters := s.waiters ++ [cur] }

/-- `sema_up` from `synch.c`: if the waiter queue is non-empty, pop the
front element (`list_pop_front`) and unblock it; then increment the
value.  Returns the new semaphore and the unblocked tid, if any. -/
def sema_up (s : Semaphore) : Semaphore × Option Nat :=
  match s.waiters with
  | [] => ({ s with value := s.value + 1 }, none)
  | w :: ws => ({ value := s.value + 1, waiters := ws }, some w)

/-- C9: `sema_try_down` succeeds and decrements the value by exactly one
iff the value is positive; on failure the semaphore is unchanged.  (It
is straight-line code in both branches, so it never blocks.) -/
theorem sema_try_down_spec (s : Semaphore) :
    ((sema_try_down s).2 = true ↔ 0 < s.value) ∧
    (0 < s.value →
      (sema_try_down s).1.value = s.value - 1 ∧
      (sema_try_down s).1.waiters = s.waiters) ∧
    (¬ 0 < s.value → (sema_try_down s).1 = s) := by
  unfold sema_try_down
  by_cases h : 0 < s.value
  · simp [h]
  · simp [h]

/-- C9 witness: a concrete run of `sema_try_down_spec` at value 2. -/
theorem sema_try_down_spec_witness :
    ((sema_try_down { value := 2, waiters := [7] }).2 = true ↔
      0 < (2 : Nat)) ∧
    (0 < (2 : Nat) →
      (sema_try_down { value := 2, waiters := [7] }).1.value = 2 - 1 ∧
      (sema_try_down { value := 2, waiters := [7] }).1.waiters = [7]) ∧
    (¬ 0 < (2 : Nat) →
      (sema_try_down { value := 2, waiters := [7] }).1 =
        { value := 2, waiters := [7] }) :=
  sema_try_down_spec { value := 2, waiters := [7] }

/-! ## Locks (`synch.c`)

A lock is a semaphore of initial value 1 plus a `holder`.  In this
source, `lock_acquire` is exactly `sema_down(&lock->semaphore)` followed
by `lock->holder = thread_current()` — the comment marks where the
priority-donation logic was to be added, and no donation code exists in
`lock_acquire`, `lock_release`, or anywhere else in `synch.c`.  To make
the absence of donation provable, the lock state carries the effective
priority of every thread (`prio`, keyed by tid). -/

structure Lock where
  holder : Option Nat
  semaphore : Semaphore
deriving DecidableEq, Repr

/-- `lock_init` from `synch.c`: no holder, semaphore of value 1. -/
def lock_init : Lock := { holder := none, semaphore := sema_init 1 }

/-- The scheduler state that the lock operations can observe: the
effective priority of every thread and one lock. -/
structure LockState where
  prio : Nat → Int
  lock : Lock

/-- `lock_acquire` from `synch.c`, as one step of the caller `cur`:
`sema_down(&lock->semaphore)` then `lock->holder = thread_current()`.
If the semaphore value is 0 the caller enqueues itself (the body of
`sema_down`'s while-loop) and blocks: the returned flag is `true`.
Otherwise the value is decremented, the caller becomes holder, and the
flag is `false`.  No field of any thread is written in either case. -/
def lock_acquire (st : LockState) (cur : Nat) : LockState × Bool :=
  if st.lock.semaphore.value = 0 then
    ({ st with lock :=
        { st.lock with semaphore := sema_down_wait st.lock.semaphore cur } },
      true)
  else
    ({ st with lock :=
        { holder := some cur,
          semaphore := { st.lock.semaphore with
                          value := st.lock.semaphore.value - 1 } } },
      false)

/-- `lock_release` from `synch.c`: `lock->holder = NULL` then
`sema_up(&lock->semaphore)`.  Returns the tid the embedded `sema_up`
unblocked, if any.  Again no thread field is written. -/
def lock_release (st : LockState) : LockState × Option Nat :=
  let su := sema_up st.lock.semaphore
  ({ st with lock := { holder := none, semaphore := su.1 } }, su.2)

/-- `thread_recalculate_priority` from `thread.c`, on the data it reads:
the thread's base priority and its donation list, which is kept sorted
by descending priority, so only the front element is consulted
(`PRI_MIN` when the list is empty).  The new effective priority is the
maximum of the base priority and that front donation.  This helper
exists in `thread.c` but is never invoked from the lock code. -/
def thread_recalculate_priority (base : Int) (donations : List Int) : Int :=
  let max_donation_priority : Int :=
    match donations with
    | [] => PRI_MIN
    | d :: _ => d
  if base > max_donation_priority then base else max_donation_priority

/-- The S2 scenario state: thread 1 (priority 20) holds the lock (the
semaphore value is 0), thread 2 (priority 40) is about to acquire. -/
def c1_state : LockState :=
  { prio := fun t => if t = 1 then 20 else if t = 2 then 40 else PRI_DEFAULT,
    lock := { holder := some 1, semaphore := { value := 0, waiters := [] } } }

/-- C1: evaluating the code on the S2 scenario.  Thread 2 (priority 40)
calls `lock_acquire` on the lock held by thread 1 (priority 20) and
blocks, yet thread 1's effective priority remains 20 — no donation to 40
occurs, because `lock_acquire` only touches the semaphore.  After
thread 1's `lock_release`, its priority is still 20.  The recomputation
helper that a donation would use does exist and would yield 40. -/
theorem lock_no_priority_donation :
    (lock_acquire c1_state 2).2 = true ∧
    ((lock_acquire c1_state 2).1.prio 1 = 20 ∧ (20 : Int) ≠ 40) ∧
    (lock_release (lock_acquire c1_state 2).1).1.prio 1 = 20 ∧
    (lock_release (lock_acquire c1_state 2).1).2 = some 2 ∧
    thread_recalculate_priority 20 [40] = 40 := by
  refine ⟨rfl, ⟨rfl, by decide⟩, rfl, rfl, by decide⟩

/-- The C2 scenario: a semaphore of value 0 whose waiter queue holds
tid 1 (enqueued first) then tid 2. -/
def c2_sema : Semaphore := { value := 0, waiters := [1, 2] }

/-- Effective priorities at `sema_up` time in the C2 scenario: thread 2
has priority 40, every other thread 10. -/
def c2_prio : Nat → Int := fun t => if t = 2 then 40 else 10

/-- C2: evaluating the code on the scenario.  `sema_up` pops the front
of the waiter queue (tid 1, priority 10) even though waiter 2 has the
higher current effective priority 40; the waiter queue was built by
`list_push_back` in `sema_down`, so selection is FIFO, not by priority. -/
theorem sema_up_wakes_fifo_front :
    (sema_up c2_sema).2 = some 1 ∧
    (2 : Nat) ∈ c2_sema.waiters ∧
    c2_prio 1 < c2_prio 2 := by
  refine ⟨rfl, by decide, by decide⟩

/-! ## Condition variables (`synch.c`)

`struct semaphore_elem` holds only a list node and a private semaphore —
there is no stored priority snapshot.  `cond_wait` appends the gate with
`list_push_back` (the waiting thread ends up inside the gate's semaphore
via `sema_down`), and `cond_signal` pops the front gate with
`list_pop_front` and ups its semaphore. -/

structure SemaphoreElem where
  semaphore : Semaphore
deriving DecidableEq, Repr

/-- The waiter-enqueue part of `cond_wait` (`synch.c`): build a gate
with a fresh semaphore of value 0, append it to `cond->waiters` with
`list_push_back`; the caller then blocks inside the gate's semaphore
(`sema_down` pushes its tid into the gate's waiter list). -/
def cond_wait_enqueue (waiters : List SemaphoreElem) (cur : Nat) :
    List SemaphoreElem :=
  waiters ++ [{ semaphore := { value := 0, waiters := [cur] } }]

/-- `cond_signal` from `synch.c`: if the waiter list is non-empty, pop
the front gate (`list_pop_front`) and `sema_up` its semaphore.  Returns
the remaining waiters, and the tid the gate's `sema_up` unblocked. -/
def cond_signal (waiters : List SemaphoreElem) :
    List SemaphoreElem × Option Nat :=
  match waiters with
  | [] => ([], none)
  | w :: ws => (ws, (sema_up w.semaphore).2)

/-- Priorities in the S6 scenario: thread 10 waits with effective
priority 25, thread 20 with 35. -/
def c4_prio : Nat → Int := fun t => if t = 20 then 35 else 25

/-- C4: evaluating the code on the S6 scenario.  Thread 10 (priority 25)
calls `cond_wait` first, then thread 20 (priority 35).  `cond_signal`
pops the front gate and wakes thread 10, not the priority-35 waiter:
the waiter list is FIFO (`list_push_back` / `list_pop_front`), and
`struct semaphore_elem` stores no priority snapshot at all. -/
theorem cond_signal_wakes_fifo_front :
    (cond_signal (cond_wait_enqueue (cond_wait_enqueue [] 10) 20)).2 =
      some 10 ∧
    c4_prio 10 < c4_prio 20 := by
  refine ⟨rfl, by decide⟩

/-! ## Properties of `list_insert_ordered` -/

/-- `list_insert_ordered` places the new element right after the longest
prefix of elements `y` with `less x y = false`. -/
theorem list_insert_ordered_eq (less : α → α → Bool) (l : List α) (x : α) :
    list_insert_ordered less l x =
      l.takeWhile (fun y => !less x y) ++ x :: l.dropWhile (fun y => !less x y) := by
  induction l with
  | nil => rfl
  | cons y ys ih =>
    by_cases h : less x y
    · simp [list_insert_ordered, h, List.takeWhile_cons, List.dropWhile_cons]
    · simp [list_insert_ordered, h, List.takeWhile_cons, List.dropWhile_cons, ih]

/-- Membership in the result of `list_insert_ordered`. -/
theorem mem_list_insert_ordered (less : α → α → Bool) (l : List α) (x a : α) :
    a ∈ list_insert_ordered less l x ↔ a = x ∨ a ∈ l := by
  rw [list_insert_ordered_eq]
  constructor
  · intro h
    rcases List.mem_append.mp h with h | h
    · exact Or.inr (List.takeWhile_subset _ h)
    · rcases List.mem_cons.mp h with h | h
      · exact Or.inl h
      · exact Or.inr (List.dropWhile_subset _ h)
  · intro h
    rcases h with h | h
    · exact List.mem_append.mpr (Or.inr (List.mem_cons.mpr (Or.inl h)))
    · have := List.takeWhile_append_dropWhile
        (p := fun y => !less x y) (l := l)
      rw [← this] at h
      rcases List.mem_append.mp h with h | h
      · exact List.mem_append.mpr (Or.inl h)
      · exact List.mem_append.mpr (Or.inr (List.mem_cons.mpr (Or.inr h)))

/-- `list_insert_ordered` preserves a `Pairwise` ordering invariant,
provided the Boolean comparator agrees with the relation. -/
theorem pairwise_list_insert_ordered {R : α → α → Prop} (less : α → α → Bool)
    (hA : ∀ a b, less a b = false → R b a)
    (hC : ∀ a b, less a b = true → R a b)
    (hT : ∀ a b c, R a b → R b c → R a c) :
    ∀ (l : List α) (x : α), l.Pairwise R →
      (list_insert_ordered less l x).Pairwise R := by
  intro l x hl
  induction l with
  | nil => simp [list_insert_ordered]
  | cons y ys ih =>
    rcases List.pairwise_cons.mp hl with ⟨hy, hys⟩
    by_cases h : less x y
    · rw [list_insert_ordered, if_pos h]
      refine List.pairwise_cons.mpr ⟨?_, hl⟩
      intro z hz
      rcases List.mem_cons.mp hz with hz | hz
      · exact hz ▸ hC x y h
      · exact hT x y z (hC x y h) (hy z hz)
    · rw [list_insert_ordered, if_neg h]
      refine List.pairwise_cons.mpr ⟨?_, ih hys⟩
      intro z hz
      rcases (mem_list_insert_ordered less ys x z).mp hz with hz | hz
      · exact hz ▸ hA x y (by simpa using h)
      · exact hy z hz

/-- On a `Pairwise`-ordered list, `takeWhile` and `dropWhile` for a
downward-closed predicate coincide with `filter`. -/
theorem takeWhile_eq_filter_of_pairwise {R : α → α → Prop} {p : α → Bool}
    (hdc : ∀ a b, R a b → p b = true → p a = true) :
    ∀ l : List α, l.Pairwise R →
      l.takeWhile p = l.filter p ∧
      l.dropWhile p = l.filter (fun a => !p a) := by
  intro l hl
  induction l with
  | nil => simp
  | cons y ys ih =>
    rcases List.pairwise_cons.mp hl with ⟨hy, hys⟩
    by_cases h : p y
    · simp [List.takeWhile_cons, List.dropWhile_cons, List.filter_cons, h,
        (ih hys).1, (ih hys).2]
    · have hall : ∀ a ∈ ys, p a = false := by
        intro a ha
        by_contra hcon
        exact h (hdc y a (hy a ha) (by simpa using hcon))
      have h1 : ys.filter p = [] := by
        apply List.filter_eq_nil_iff.mpr
        intro a ha
        simp [hall a ha]
      have h2 : ys.filter (fun a => !p a) = ys := by
        apply List.filter_eq_self.mpr
        intro a ha
        simp [hall a ha]
      simp [List.takeWhile_cons, List.dropWhile_cons, List.filter_cons, h, h1, h2]

/-! ## The timed-sleep facility (`thread.c`, `timer.c`) -/

/-- The sleep list invariant: ascending `wakeup_tick`. -/
abbrev SleepOrdered (l : List Thrd) : Prop :=
  l.Pairwise (fun a b => a.wakeup_tick ≤ b.wakeup_tick)

/-- The ready list invariant: descending effective priority. -/
abbrev ReadyOrdered (l : List Thrd) : Prop :=
  l.Pairwise (fun a b => b.priority ≤ a.priority)

/-- The scan loop of `thread_wakeup` (`thread.c`): walk the sleep list
from the front; every entry with `wakeup_tick <= current_ticks` is
removed (and unblocked); the loop breaks at the first later entry.
Returns (woken entries, remaining sleep list). -/
def thread_wakeup_scan (now : Int) : List Thrd → List Thrd × List Thrd
  | [] => ([], [])
  | t :: ts =>
    if t.wakeup_tick ≤ now then
      let r := thread_wakeup_scan now ts
      (t :: r.1, r.2)
    else ([], t :: ts)

/-- The scan is `takeWhile` / `dropWhile` of the wakeup-due predicate. -/
theorem thread_wakeup_scan_eq (now : Int) (l : List Thrd) :
    thread_wakeup_scan now l =
      (l.takeWhile (fun t => decide (t.wakeup_tick ≤ now)),
       l.dropWhile (fun t => decide (t.wakeup_tick ≤ now))) := by
  induction l with
  | nil => rfl
  | cons t ts ih =>
    by_cases h : t.wakeup_tick ≤ now
    · simp [thread_wakeup_scan, h, List.takeWhile_cons, List.dropWhile_cons, ih]
    · simp [thread_wakeup_scan, h, List.takeWhile_cons, List.dropWhile_cons]

/-- `thread_sleep_until` (`thread.c`): store the wakeup tick in the
caller's TCB and insert it into the sleep list in `wakeup_tick` order
(via `list_insert_ordered` with `thread_wakeup_less_func`), then block. -/
def thread_sleep_until (sleep : List Thrd) (cur : Thrd) (w : Int) : List Thrd :=
  list_insert_ordered thread_wakeup_less_func sleep
    { cur with wakeup_tick := w, status := Status.blocked }

/-- `timer_sleep` (`timer.c`): return immediately when the argument is
not positive, otherwise `thread_sleep_until(timer_ticks() + ticks)`. -/
def timer_sleep (now : Int) (sleep : List Thrd) (cur : Thrd) (n : Int) :
    List Thrd :=
  if n ≤ 0 then sleep
  else thread_sleep_until sleep cur (now + n)

/-- `next_thread_to_run` from `thread.c`: return the idle thread when
the ready list is empty, otherwise pop the ready list's front element
(the list is kept in descending priority order).  The second component
is the ready list after the pop. -/
def next_thread_to_run (idle_t : Thrd) (ready : List Thrd) :
    Thrd × List Thrd :=
  match ready with
  | [] => (idle_t, [])
  | t :: ts => (t, ts)

/-- The ready-list part of `thread_yield` (`thread.c`): the current
thread re-enters the ready list via `list_insert_ordered` with
`thread_priority_less_func`, unless it is the idle thread
(`if (curr != idle_thread)`). -/
def thread_yield_enqueue (idle_t curr : Thrd) (ready : List Thrd) :
    List Thrd :=
  if curr ≠ idle_t then
    list_insert_ordered thread_priority_less_func ready curr
  else ready

/-- C6: the dispatcher returns the idle thread exactly when the ready
list is empty; on a ready list ordered by descending priority it returns
a thread of maximal effective priority; `list_insert_ordered` with
`thread_priority_less_func` places a new thread after every incumbent of
priority ≥ its own (so equal-priority threads are dispatched FIFO, the
later-inserted one later); and the idle thread yielding does not enqueue
itself. -/
theorem next_thread_to_run_spec (idle_t x : Thrd) (l : List Thrd)
    (hs : ReadyOrdered l) (hi : idle_t ∉ l) :
    next_thread_to_run idle_t [] = (idle_t, []) ∧
    ((next_thread_to_run idle_t l).1 = idle_t ↔ l = []) ∧
    (∀ y ∈ l, y.priority ≤ (next_thread_to_run idle_t l).1.priority) ∧
    (list_insert_ordered thread_priority_less_func l x =
        l.filter (fun e => !thread_priority_less_func x e) ++
          x :: l.filter (fun e => thread_priority_less_func x e)) ∧
    thread_yield_enqueue idle_t idle_t l = l := by
  have hdc : ∀ a b : Thrd, b.priority ≤ a.priority →
      (!thread_priority_less_func x b) = true →
      (!thread_priority_less_func x a) = true := by
    intro a b hab hb
    simp only [thread_priority_less_func, Bool.not_eq_true', decide_eq_false_iff_not,
      not_lt] at hb ⊢
    exact le_trans hb hab
  have hfilters := takeWhile_eq_filter_of_pairwise hdc l hs
  refine ⟨rfl, ?_, ?_, ?_, ?_⟩
  · constructor
    · intro h
      cases l with
      | nil => rfl
      | cons z zs =>
        exact absurd (h ▸ List.mem_cons_self z zs) hi
    · intro h
      subst h
      rfl
  · intro y hy
    cases l with
    | nil => cases hy
    | cons z zs =>
      rcases List.mem_cons.mp hy with hy | hy
      · exact hy ▸ le_refl _
      · exact (List.pairwise_cons.mp hs).1 y hy
  · rw [list_insert_ordered_eq, hfilters.1, hfilters.2]
    simp
  · simp [thread_yield_enqueue]

/-- A concrete idle thread (tid 0, priority `PRI_MIN`). -/
def c6_idle : Thrd :=
  { tid := 0, status := Status.running, priority := 0, base_priority := 0,
    wakeup_tick := 0, nice := 0, recent_cpu := 0 }

/-- A concrete ready thread of priority 40. -/
def c6_a : Thrd :=
  { tid := 3, status := Status.ready, priority := 40, base_priority := 40,
    wakeup_tick := 0, nice := 0, recent_cpu := 0 }

/-- A concrete ready thread of priority 20, enqueued before `c6_c`. -/
def c6_b : Thrd :=
  { tid := 4, status := Status.ready, priority := 20, base_priority := 20,
    wakeup_tick := 0, nice := 0, recent_cpu := 0 }

/-- A concrete thread of priority 20 that arrives after `c6_b`. -/
def c6_c : Thrd :=
  { tid := 5, status := Status.ready, priority := 20, base_priority := 20,
    wakeup_tick := 0, nice := 0, recent_cpu := 0 }

/-- C6 witness: on the concrete ready list `[c6_a (40), c6_b (20)]` with
idle thread `c6_idle`, the newcomer `c6_c` (priority 20) lands behind
the equal-priority incumbent `c6_b`. -/
theorem next_thread_to_run_spec_witness :
    next_thread_to_run c6_idle [] = (c6_idle, []) ∧
    ((next_thread_to_run c6_idle [c6_a, c6_b]).1 = c6_idle ↔
      ([c6_a, c6_b] : List Thrd) = []) ∧
    (∀ y ∈ ([c6_a, c6_b] : List Thrd),
      y.priority ≤ (next_thread_to_run c6_idle [c6_a, c6_b]).1.priority) ∧
    (list_insert_ordered thread_priority_less_func [c6_a, c6_b] c6_c =
        [c6_a, c6_b].filter (fun e => !thread_priority_less_func c6_c e) ++
          c6_c :: [c6_a, c6_b].filter (fun e => thread_priority_less_func c6_c e)) ∧
    thread_yield_enqueue c6_idle c6_idle [c6_a, c6_b] = [c6_a, c6_b] :=
  next_thread_to_run_spec c6_idle c6_c [c6_a, c6_b] (by decide) (by decide)

/-- C7: ordered insertion with `thread_wakeup_less_func` preserves the
ascending-`wakeup_tick` order of the sleep list, and on an ordered sleep
list the wakeup scan wakes precisely the entries whose `wakeup_tick` is
at most the current tick count — a prefix of the list — leaving exactly
the later entries (in order, still sorted). -/
theorem thread_wakeup_exact_prefix (now : Int) (l : List Thrd) (t : Thrd)
    (hs : SleepOrdered l) :
    SleepOrdered (list_insert_ordered thread_wakeup_less_func l t) ∧
    (thread_wakeup_scan now l).1 =
      l.takeWhile (fun e => decide (e.wakeup_tick ≤ now)) ∧
    (thread_wakeup_scan now l).1 =
      l.filter (fun e => decide (e.wakeup_tick ≤ now)) ∧
    (thread_wakeup_scan now l).2 =
      l.filter (fun e => !decide (e.wakeup_tick ≤ now)) ∧
    SleepOrdered (thread_wakeup_scan now l).2 := by
  have hdc : ∀ a b : Thrd, a.wakeup_tick ≤ b.wakeup_tick →
      decide (b.wakeup_tick ≤ now) = true →
      decide (a.wakeup_tick ≤ now) = true := by
    intro a b hab hb
    simp only [decide_eq_true_eq] at hb ⊢
    exact le_trans hab hb
  have hfilters := takeWhile_eq_filter_of_pairwise hdc l hs
  have hscan := thread_wakeup_scan_eq now l
  refine ⟨?_, ?_, ?_, ?_, ?_⟩
  · refine pairwise_list_insert_ordered thread_wakeup_less_func ?_ ?_ ?_ l t hs
    · intro a b h
      have : ¬ a.wakeup_tick < b.wakeup_tick := by
        simpa [thread_wakeup_less_func] using h
      exact le_of_not_lt this
    · intro a b h
      have : a.wakeup_tick < b.wakeup_tick := by
        simpa [thread_wakeup_less_func] using h
      exact le_of_lt this
    · intro a b c hab hbc
      exact le_trans hab hbc
  · rw [hscan]
  · rw [hscan]
    exact hfilters.1
  · rw [hscan]
    exact hfilters.2
  · rw [hscan]
    exact hs.sublist (List.dropWhile_sublist _)

/-- A concrete sleeper due at tick 10. -/
def c7_s10 : Thrd :=
  { tid := 11, status := Status.blocked, priority := 31, base_priority := 31,
    wakeup_tick := 10, nice := 0, recent_cpu := 0 }

/-- A concrete sleeper due at tick 30. -/
def c7_s30 : Thrd :=
  { tid := 12, status := Status.blocked, priority := 31, base_priority := 31,
    wakeup_tick := 30, nice := 0, recent_cpu := 0 }

/-- A concrete sleeper due at tick 20, inserted into `[c7_s10, c7_s30]`. -/
def c7_s20 : Thrd :=
  { tid := 13, status := Status.blocked, priority := 31, base_priority := 31,
    wakeup_tick := 20, nice := 0, recent_cpu := 0 }

/-- C7 witness: scanning `[c7_s10, c7_s30]` at tick 20 wakes exactly the
tick-10 sleeper, and inserting a tick-20 sleeper keeps the list sorted. -/
theorem thread_wakeup_exact_prefix_witness :
    SleepOrdered (list_insert_ordered thread_wakeup_less_func
      [c7_s10, c7_s30] c7_s20) ∧
    (thread_wakeup_scan 20 [c7_s10, c7_s30]).1 =
      [c7_s10, c7_s30].takeWhile (fun e => decide (e.wakeup_tick ≤ 20)) ∧
    (thread_wakeup_scan 20 [c7_s10, c7_s30]).1 =
      [c7_s10, c7_s30].filter (fun e => decide (e.wakeup_tick ≤ 20)) ∧
    (thread_wakeup_scan 20 [c7_s10, c7_s30]).2 =
      [c7_s10, c7_s30].filter (fun e => !decide (e.wakeup_tick ≤ 20)) ∧
    SleepOrdered (thread_wakeup_scan 20 [c7_s10, c7_s30]).2 :=
  thread_wakeup_exact_prefix 20 [c7_s10, c7_s30] c7_s20 (by decide)

/-- C8: `timer_sleep(n)` leaves the sleep list untouched for `n ≤ 0`;
for `n > 0` it is exactly `thread_sleep_until(ticks + n)`; and no thread
woken by a wakeup scan at tick `now` has a wakeup tick beyond `now` — so
a sleeper with `wakeup_tick = ticks + n` is never woken while the tick
count is below that (it may be woken later). -/
theorem timer_sleep_spec (ticks n now : Int) (sleep l : List Thrd)
    (cur t : Thrd) (ht : t ∈ (thread_wakeup_scan now l).1) :
    (n ≤ 0 → timer_sleep ticks sleep cur n = sleep) ∧
    (0 < n → timer_sleep ticks sleep cur n =
      thread_sleep_until sleep cur (ticks + n)) ∧
    t.wakeup_tick ≤ now := by
  refine ⟨?_, ?_, ?_⟩
  · intro h
    simp [timer_sleep, h]
  · intro h
    have h2 : ¬ n ≤ 0 := not_le.mpr h
    simp [timer_sleep, h2]
  · rw [thread_wakeup_scan_eq now l] at ht
    have := List.mem_takeWhile_imp ht
    simpa using this

/-- C8 witness: `timer_sleep` at tick 5 with `n = 3` on an empty sleep
list, and the tick-10 sleeper woken by a scan at tick 20 indeed has
`wakeup_tick ≤ 20`. -/
theorem timer_sleep_spec_witness :
    ((3 : Int) ≤ 0 → timer_sleep 5 [] c7_s20 3 = []) ∧
    ((0 : Int) < 3 → timer_sleep 5 [] c7_s20 3 =
      thread_sleep_until [] c7_s20 (5 + 3)) ∧
    c7_s10.wakeup_tick ≤ 20 :=
  timer_sleep_spec 5 3 20 [] [c7_s10, c7_s30] c7_s20 c7_s10 (by decide)

/-! ## `thread_unblock` (`thread.c`) -/

/-- The scheduler action `thread_unblock` takes after the ready-list
insertion: nothing, `intr_yield_on_return()` (a deferred yield consumed
on ISR return), or a direct `thread_yield()` call. -/
inductive YieldAction where
  | nothing
  | deferred
  | direct
deriving DecidableEq, Repr

/-- `thread_unblock` from `thread.c`: insert `t` into the ready list in
priority order and mark it ready; then, if the current thread is not the
idle thread AND `t`'s priority exceeds the current thread's, either
request a deferred yield (`intr_yield_on_return`) when in interrupt
context or call `thread_yield()` directly.  Returns the new ready list
and the action taken. -/
def thread_unblock (idle_tid : Nat) (cur : Thrd) (in_intr : Bool)
    (ready : List Thrd) (t : Thrd) : List Thrd × YieldAction :=
  let ready' := list_insert_ordered thread_priority_less_func ready
    { t with status := Status.ready }
  if cur.tid ≠ idle_tid ∧ t.priority > cur.priority then
    (ready', if in_intr then YieldAction.deferred else YieldAction.direct)
  else
    (ready', YieldAction.nothing)

/-- A concrete idle thread for the C5 counterexample (tid 0 = idle tid). -/
def c5_idle : Thrd :=
  { tid := 0, status := Status.running, priority := 0, base_priority := 0,
    wakeup_tick := 0, nice := 0, recent_cpu := 0 }

/-- A concrete thread of priority 5 being unblocked. -/
def c5_t : Thrd :=
  { tid := 1, status := Status.blocked, priority := 5, base_priority := 5,
    wakeup_tick := 0, nice := 0, recent_cpu := 0 }

/-- C5 counterexample: the claim as stated fails when the current thread
is the idle thread.  Unblocking `c5_t` (priority 5 > idle's 0) from
interrupt context while the idle thread is current takes no yield action
at all — `thread_unblock`'s guard `thread_current() != idle_thread`
suppresses it — while the claim requires the deferred-yield flag. -/
theorem thread_unblock_idle_counterexample :
    c5_t.priority > c5_idle.priority ∧
    (thread_unblock 0 c5_idle true [] c5_t).2 = YieldAction.nothing ∧
    YieldAction.nothing ≠ YieldAction.deferred := by
  refine ⟨by decide, by decide, by decide⟩

/-- C5 (amended): provided the current thread is not the idle thread, if
the unblocked thread's effective priority exceeds the current thread's,
`thread_unblock` yields directly in thread context and requests a
deferred yield in interrupt context; the unblocked thread is placed on
the ready list (marked ready) in either case. -/
theorem thread_unblock_yield_spec (idle_tid : Nat) (cur t : Thrd)
    (in_intr : Bool) (ready : List Thrd)
    (hcur : cur.tid ≠ idle_tid) (hpri : t.priority > cur.priority) :
    (thread_unblock idle_tid cur in_intr ready t).2 =
      (if in_intr then YieldAction.deferred else YieldAction.direct) ∧
    { t with status := Status.ready } ∈
      (thread_unblock idle_tid cur in_intr ready t).1 := by
  unfold thread_unblock
  rw [if_pos ⟨hcur, hpri⟩]
  exact ⟨rfl,
    (mem_list_insert_ordered thread_priority_less_func ready _ _).mpr
      (Or.inl rfl)⟩

/-- C5 witness: unblocking `c5_t` while a non-idle thread of priority 3
(tid 2) runs, from interrupt context. -/
theorem thread_unblock_yield_spec_witness :
    (thread_unblock 0
        { tid := 2, status := Status.running, priority := 3, base_priority := 3,
          wakeup_tick := 0, nice := 0, recent_cpu := 0 } true [] c5_t).2 =
      (if true then YieldAction.deferred else YieldAction.direct) ∧
    { c5_t with status := Status.ready } ∈
      (thread_unblock 0
        { tid := 2, status := Status.running, priority := 3, base_priority := 3,
          wakeup_tick := 0, nice := 0, recent_cpu := 0 } true [] c5_t).1 :=
  thread_unblock_yield_spec 0
    { tid := 2, status := Status.running, priority := 3, base_priority := 3,
      wakeup_tick := 0, nice := 0, recent_cpu := 0 }
    c5_t true [] (by decide) (by decide)

/-! ## The timer ISR (`timer.c`) and MLFQS accounting (`thread.c`) -/

/-- The global scheduler state touched by the timer interrupt handler. -/
structure KState where
  ticks : Int
  thread_ticks : Nat
  yield_on_return : Bool
  mlfqs : Bool
  idle_tid : Nat
  current : Thrd
  ready_list : List Thrd
  sleep_list : List Thrd
  idle_ticks : Int
  kernel_ticks : Int
deriving Repr

/-- `thread_tick` from `thread.c`: bump the per-thread tick statistic,
then increment the slice counter `thread_ticks` and request a deferred
yield (`intr_yield_on_return`) once it reaches `TIME_SLICE`. -/
def thread_tick (st : KState) : KState :=
  let st1 :=
    if st.current.tid = st.idle_tid then
      { st with idle_ticks := st.idle_ticks + 1 }
    else
      { st with kernel_ticks := st.kernel_ticks + 1 }
  let st2 := { st1 with thread_ticks := st1.thread_ticks + 1 }
  if st2.thread_ticks ≥ TIME_SLICE then
    { st2 with yield_on_return := true }
  else st2

/-- The per-thread step of `thread_wakeup`'s loop: `thread_unblock`
called from interrupt context on a thread removed from the sleep list. -/
def thread_unblock_in_isr (st : KState) (t : Thrd) : KState :=
  let r := thread_unblock st.idle_tid st.current true st.ready_list t
  { st with
      ready_list := r.1,
      yield_on_return := st.yield_on_return || decide (r.2 = YieldAction.deferred) }

/-- `thread_wakeup` from `thread.c` at the state level: scan the sleep
list, remove every due entry and `thread_unblock` it. -/
def thread_wakeup (now : Int) (st : KState) : KState :=
  let r := thread_wakeup_scan now st.sleep_list
  r.1.foldl thread_unblock_in_isr { st with sleep_list := r.2 }

/-- `timer_interrupt` from `timer.c`: `ticks++`, then `thread_tick()`,
then `thread_wakeup(ticks)`.  (This is the handler's entire body; no
MLFQS accounting call appears in it.) -/
def timer_interrupt (st : KState) : KState :=
  let st1 := { st with ticks := st.ticks + 1 }
  let st2 := thread_tick st1
  thread_wakeup st2.ticks st2

/-- `mlfqs_increment_recent_cpu` from `thread.c`: when the current
thread is not the idle thread, `recent_cpu += 1` in 17.14 fixed point
(`FP_ADD_MIXED(recent_cpu, 1)`).  This function exists in `thread.c`
but is not called from `timer_interrupt`. -/
def mlfqs_increment_recent_cpu (st : KState) : KState :=
  if st.current.tid ≠ st.idle_tid then
    { st with current :=
        { st.current with recent_cpu := FP_ADD_MIXED st.current.recent_cpu 1 } }
  else st

/-- Folding the ISR unblock step over any list never changes the current
thread. -/
theorem foldl_unblock_current (l : List Thrd) (st : KState) :
    (l.foldl thread_unblock_in_isr st).current = st.current := by
  induction l generalizing st with
  | nil => rfl
  | cons t ts ih => rw [List.foldl_cons, ih]; rfl

/-- The MLFQS-demo state for C3: MLFQS on, a non-idle thread (tid 1)
running with `recent_cpu = 0`, nothing asleep. -/
def c3_state : KState :=
  { ticks := 100, thread_ticks := 0, yield_on_return := false,
    mlfqs := true, idle_tid := 0,
    current := { tid := 1, status := Status.running, priority := 31,
                 base_priority := 31, wakeup_tick := 0, nice := 0,
                 recent_cpu := 0 },
    ready_list := [], sleep_list := [],
    idle_ticks := 0, kernel_ticks := 0 }

/-- C3: the timer interrupt handler performs no `recent_cpu` accounting
at all — for every state (MLFQS or not) the running thread's
`recent_cpu` is unchanged by `timer_interrupt`.  In particular, on the
MLFQS state `c3_state` with a non-idle running thread, a tick leaves
`recent_cpu` at 0, whereas the `mlfqs_increment_recent_cpu` helper that
the claim describes (present in `thread.c` but never called from the
ISR) would raise it to `F = 16384`, i.e. fixed-point 1. -/
theorem timer_interrupt_skips_recent_cpu (st : KState) :
    (timer_interrupt st).current.recent_cpu = st.current.recent_cpu ∧
    c3_state.mlfqs = true ∧
    c3_state.current.tid ≠ c3_state.idle_tid ∧
    (timer_interrupt c3_state).current.recent_cpu = 0 ∧
    (mlfqs_increment_recent_cpu c3_state).current.recent_cpu = 16384 ∧
    FP_ADD_MIXED 0 1 = 16384 := by
  refine ⟨?_, rfl, by decide, ?_, by decide, by decide⟩
  · unfold timer_interrupt thread_wakeup
    rw [foldl_unblock_current]
    unfold thread_tick
    dsimp only
    split <;> split <;> rfl
  · show (timer_interrupt c3_state).current.recent_cpu = 0
    rfl

/-! ## MLFQS getters (`thread.c`) -/

/-- `thread_get_nice` from `thread.c`: `if (!thread_mlfqs) return 0;`
otherwise the current thread's `nice`. -/
def thread_get_nice (mlfqs : Bool) (nice : Int) : Int :=
  if !mlfqs then 0 else nice

/-- `thread_get_load_avg` from `thread.c`: 0 when MLFQS is off;
otherwise `load_avg * 100` converted to an integer with round-to-nearest
(the two sign branches of the C code; C division truncates toward zero,
`Int.tdiv`). -/
def thread_get_load_avg (mlfqs : Bool) (load_avg : Int) : Int :=
  if !mlfqs then 0
  else
    let n_load_avg := load_avg * 100
    if n_load_avg ≥ 0 then Int.tdiv (n_load_avg + 8192) 16384
    else Int.tdiv (n_load_avg - 8192) 16384

/-- `thread_get_recent_cpu` from `thread.c`: 0 when MLFQS is off;
otherwise the current thread's `recent_cpu * 100` rounded to nearest. -/
def thread_get_recent_cpu (mlfqs : Bool) (recent_cpu : Int) : Int :=
  if !mlfqs then 0
  else
    let n_recent_cpu := recent_cpu * 100
    if n_recent_cpu ≥ 0 then Int.tdiv (n_recent_cpu + 8192) 16384
    else Int.tdiv (n_recent_cpu - 8192) 16384

/-- C10: with the MLFQS boot flag off, `thread_get_nice`,
`thread_get_load_avg` and `thread_get_recent_cpu` return 0 whatever the
stored `nice`, `load_avg` or `recent_cpu` values are.  (Each embedded
function is read-only, mirroring the C code, which writes nothing on
this path.) -/
theorem mlfqs_getters_zero_when_off (nice load_avg recent_cpu : Int) :
    thread_get_nice false nice = 0 ∧
    thread_get_load_avg false load_avg = 0 ∧
    thread_get_recent_cpu false recent_cpu = 0 :=
  ⟨rfl, rfl, rfl⟩

end Pintos
